import Mathlib

/-!
Verification of the instrumented dispatch layer of a small stateless HTTP
compute service (a Rust/axum application, `src/app/rust/src/main.rs`).

The development shallowly embeds:
* the response/header data model (`Resp`, `headerInsert`, `lookupHeader`);
* the timing middleware `TimingService::call` (`timingCall`), with the
  textual renderings of `Instant`/`Duration` Debug output and the
  `HeaderValue::from_str` validity check;
* the five operation handlers (`math_operations`, `json_manipulation`,
  `string_processing`, `compress_data`, `image_processing`), including
  two's-complement `i64` arithmetic, serde_json string escaping, a model
  of the external regex engine on the fragment the service exercises,
  framed models of the external gzip codec and PNG encoder, and a
  complete base64 encoder/decoder;
* the router built by `create_router`, with axum's dispatch semantics
  (404 on unknown path, 405 on known path with a non-POST method).

Machine instants are modelled as natural numbers of nanoseconds read from
a monotone clock; the four clock reads of one middleware invocation are
passed explicitly, ordered by hypotheses where the claims need order.
-/

/-! ## JSON values, responses and header maps -/

/-- JSON values as produced by serde_json (floating point numbers are not
used by any payload or response of this service and are omitted). -/
inductive Jval where
  | null
  | bool (b : Bool)
  | int (n : Int)
  | str (s : String)
  | arr (elems : List Jval)
  | obj (fields : List (String × Jval))

/-- A response body: either a JSON document (axum `Json`) or raw bytes. -/
inductive RespBody where
  | json (v : Jval)
  | raw (bytes : List Nat)

/-- Header maps, modelled as association lists in insertion order. -/
abbrev Headers := List (String × String)

/-- An HTTP response: status code, header map, body
(`axum::http::Response<BoxBody>`). -/
structure Resp where
  status : Nat
  headers : Headers
  body : RespBody

/-- Models `http::HeaderMap::insert`: any previous values stored under the name
are removed and the single new value is associated with the name. -/
def headerInsert (name val : String) (hs : Headers) : Headers :=
  hs.filter (fun h => h.1 != name) ++ [(name, val)]

/-- Look a header up by name (first match). -/
def lookupHeader (name : String) (hs : Headers) : Option String :=
  (hs.find? (fun h => h.1 == name)).map (fun h => h.2)

/-- Models `(StatusCode, Json(v)).into_response()`: a JSON body with the
`content-type: application/json` header set by axum. -/
def jsonResponse (status : Nat) (v : Jval) : Resp :=
  { status := status
    headers := [("content-type", "application/json")]
    body := .json v }

/-- The `(StatusCode, Json(json!({"error": msg})))` shape every handler
uses for its failure branches. -/
def errorResponse (status : Nat) (msg : String) : Resp :=
  jsonResponse status (.obj [("error", .str msg)])

/-! ## Decimal rendering and the Debug output of `Instant` / `Duration` -/

/-- The ASCII digit for `n % 10`. -/
def digitChar (n : Nat) : Char := Char.ofNat (48 + n % 10)

/-- Decimal digits of `n`, most significant first (the rendering used by
Rust's `Display`/`Debug` for unsigned integers). -/
def decimalDigits (n : Nat) : List Char :=
  if _h : n < 10 then [digitChar n]
  else decimalDigits (n / 10) ++ [digitChar (n % 10)]
decreasing_by exact Nat.div_lt_self (by omega) (by omega)

/-- Decimal rendering of a natural number. -/
def decimal (n : Nat) : String := String.mk (decimalDigits n)

/-- Renders `format!("{:?}", instant)` for `std::time::Instant` on Linux, an
instant being `t` nanoseconds of monotone clock time. -/
def renderInstant (t : Nat) : String :=
  "Instant \x7b tv_sec: " ++ decimal (t / 1000000000) ++
    ", tv_nsec: " ++ decimal (t % 1000000000) ++ " \x7d"

/-- Drop trailing `'0'` digits (Rust's `Duration` Debug output trims the
fractional part). -/
def trimZeros (ds : List Char) : List Char :=
  (ds.reverse.dropWhile (fun c => c == '0')).reverse

/-- Left-pad a digit string with `'0'` to width `w`. -/
def padZeros (w : Nat) (ds : List Char) : List Char :=
  List.replicate (w - ds.length) '0' ++ ds

/-- The fractional part of a `Duration` Debug rendering: `frac` is the
sub-unit remainder, `w` the number of fractional digits of the unit. -/
def fracPart (frac : Nat) (w : Nat) : String :=
  if (trimZeros (padZeros w (decimalDigits frac))).isEmpty then ""
  else "." ++ String.mk (trimZeros (padZeros w (decimalDigits frac)))

/-- Renders `format!("{:?}", duration)` for `std::time::Duration`: the largest
fitting unit among `s`, `ms`, `µs`, `ns`, with a trimmed fraction. -/
def renderDuration (n : Nat) : String :=
  if n / 1000000000 > 0 then decimal (n / 1000000000) ++ fracPart (n % 1000000000) 9 ++ "s"
  else if n / 1000000 > 0 then decimal (n / 1000000) ++ fracPart (n % 1000000) 6 ++ "ms"
  else if n / 1000 > 0 then decimal (n / 1000) ++ fracPart (n % 1000) 3 ++ "µs"
  else decimal n ++ "ns"

/-- The byte-validity check of `http::HeaderValue::from_str`, expressed on
a character of a Rust (UTF-8) string: a one-byte character must be ≥ 32
and ≠ 127 or the tab character; every byte of a multi-byte character is
≥ 0x80 and is accepted as `obs-text`. -/
def isValidHVChar (c : Char) : Bool :=
  decide ((32 ≤ c.toNat ∧ c.toNat ≠ 127) ∨ c.toNat = 9 ∨ 128 ≤ c.toNat)

/-- Models `HeaderValue::from_str`, on the characters of the string. -/
def hvFromStr (s : String) : Option String :=
  if s.data.all isValidHVChar then some s else none

/-! ## The timing middleware (`TimingService::call`) -/

/-- The six header entries inserted by `TimingService::call`, in source
order; `t0, t1, t2, t3` are the four successive `Instant::now()` reads
(`lambda_start`, `endpoint_start`, `lambda_end`, `endpoint_end`). -/
def timingHeaderList (t0 t1 t2 t3 : Nat) : Headers :=
  [("X-Lambda-Start-Time", renderInstant t0),
   ("X-Lambda-End-Time", renderInstant t2),
   ("X-Lambda-Duration", renderDuration (t2 - t0)),
   ("X-Endpoint-Start-Time", renderInstant t1),
   ("X-Endpoint-End-Time", renderInstant t3),
   ("X-Endpoint-Duration", renderDuration (t3 - t1))]

/-- Models `TimingService::call` after the inner service produced `resp`: the six
timing headers are inserted into the response's header map in place. -/
def timingCall (t0 t1 t2 t3 : Nat) (resp : Resp) : Resp :=
  { resp with
    headers := (timingHeaderList t0 t1 t2 t3).foldl
      (fun hs nv => headerInsert nv.1 nv.2 hs) resp.headers }

/-- Models `TimingService::call` with the `HeaderValue::from_str(..).unwrap()`
calls made explicit: `none` models the panic of a failed `unwrap`. -/
def timingCallChecked (t0 t1 t2 t3 : Nat) (resp : Resp) : Option Resp :=
  ((timingHeaderList t0 t1 t2 t3).foldlM
      (fun hs nv => (hvFromStr nv.2).map (fun v => headerInsert nv.1 v hs))
      resp.headers).map
    (fun hs => { resp with headers := hs })

/-! ## `/math` — `math_operations` -/

/-- The decoded `/math` payload (`struct MathPayload`). Deserializing
`Vec<i64>` bounds every element to the `i64` range. -/
structure MathPayload where
  numbers : List Int
  operation : Option String

/-- Reduce an integer to the `i64` range by two's-complement wrap-around,
the release-profile semantics of `i64` arithmetic (a debug build would
abort on overflow instead; either way an overflowing reduction does not
produce the unbounded arithmetic result). -/
def i64wrap (n : Int) : Int := (n + 2 ^ 63) % 2 ^ 64 - 2 ^ 63

/-- Models `payload.numbers.iter().sum::<i64>()`: a left fold of `i64` addition
starting from `0`. -/
def i64sum (xs : List Int) : Int := xs.foldl (fun a b => i64wrap (a + b)) 0

/-- Models `payload.numbers.iter().product::<i64>()`: a left fold of `i64`
multiplication starting from `1`. -/
def i64prod (xs : List Int) : Int := xs.foldl (fun a b => i64wrap (a * b)) 1

/-- The `/math` handler `math_operations`. -/
def math_operations (p : MathPayload) : Resp :=
  if p.numbers.isEmpty then errorResponse 400 "No numbers provided"
  else
    match p.operation.getD "sum" with
    | "sum" => jsonResponse 200 (.obj [("result", .int (i64sum p.numbers))])
    | "product" => jsonResponse 200 (.obj [("result", .int (i64prod p.numbers))])
    | _ => errorResponse 400 "Unsupported operation"

/-! ## `/json` — `json_manipulation` -/

/-- The decoded `/json` payload (`struct JsonPayload`). -/
structure JsonPayload where
  key : Option String
  value : Option String

/-- Lower-case hexadecimal digit, as used by serde_json's escaper. -/
def hexDigit (n : Nat) : Char := "0123456789abcdef".data.getD (n % 16) '0'

/-- serde_json's escaping of one character inside a JSON string literal:
quote and backslash are escaped, control characters use the short escapes
`\b \t \n \f \r` or a `\u00XX` sequence, everything else is verbatim. -/
def escapeJsonChar (c : Char) : List Char :=
  if c = '"' then ['\\', '"']
  else if c = '\\' then ['\\', '\\']
  else if c.toNat < 32 then
    match c.toNat with
    | 8 => ['\\', 'b']
    | 9 => ['\\', 't']
    | 10 => ['\\', 'n']
    | 12 => ['\\', 'f']
    | 13 => ['\\', 'r']
    | k => ['\\', 'u', '0', '0', hexDigit (k / 16), hexDigit (k % 16)]
  else [c]

/-- A JSON string literal for `s`, serde_json style. -/
def jsonQuote (s : String) : String :=
  "\"" ++ String.mk (s.data.map escapeJsonChar).flatten ++ "\""

/-- Models `serde_json::json!({ key: value }).to_string()`: the compact
serialization of the one-entry object mapping `key` to `value`. -/
def jsonStringify1 (key value : String) : String :=
  "\x7b" ++ jsonQuote key ++ ":" ++ jsonQuote value ++ "\x7d"

/-- The `/json` handler `json_manipulation`. -/
def json_manipulation (p : JsonPayload) : Resp :=
  match p.key with
  | none => errorResponse 400 "Key and value are required"
  | some key =>
    match p.value with
    | none => errorResponse 400 "Key and value are required"
    | some value =>
      jsonResponse 200 (.obj [("json_data", .str (jsonStringify1 key value))])

/-! ## `/string` — `string_processing` and the regex engine

The regex engine (`regex::Regex`) is an external collaborator of the
service.  It is modelled on the fragment the service's contract
exercises: literal characters, the `.` metacharacter (any character but
a newline) and group parentheses, concatenated.  `parsePattern` rejects
a pattern with unbalanced parentheses — the invalid-pattern case named
by the specification — and conservatively rejects the metacharacters
whose semantics lie outside the modelled fragment. -/

/-- One atom of a compiled pattern. -/
inductive RAtom where
  | lit (c : Char)
  | dot
deriving DecidableEq

/-- Whether an atom matches one character (`.` does not match `'\n'`). -/
def atomMatches : RAtom → Char → Bool
  | .lit a, c => a == c
  | .dot, c => c != '\n'

/-- Metacharacters outside the modelled fragment of the engine. -/
def regexMeta : List Char :=
  ['|', '*', '+', '?', '[', ']', '^', '$', '\\', '\x7b', '\x7d']

/-- Compile a pattern, tracking the open-parenthesis depth; unbalanced
parentheses make compilation fail. -/
def parsePattern : List Char → Nat → Option (List RAtom)
  | [], 0 => some []
  | [], _ + 1 => none
  | c :: rest, depth =>
    if c = '(' then parsePattern rest (depth + 1)
    else if c = ')' then
      match depth with
      | 0 => none
      | d + 1 => parsePattern rest d
    else if c = '.' then (parsePattern rest depth).map (fun ps => .dot :: ps)
    else if c ∈ regexMeta then none
    else (parsePattern rest depth).map (fun ps => .lit c :: ps)

/-- Models `regex::Regex::new`. -/
def regexNew (pat : String) : Option (List RAtom) := parsePattern pat.data 0

/-- Match a compiled pattern against a prefix of the text, returning the
unconsumed suffix on success. -/
def matchAtoms : List RAtom → List Char → Option (List Char)
  | [], rest => some rest
  | _ :: _, [] => none
  | a :: ps, c :: cs => if atomMatches a c then matchAtoms ps cs else none

/-- Scanning of `find_iter`: successive leftmost non-overlapping matches of
the pattern, scanning the text left to right; a successful match consumes
exactly one character per atom, so the scan resumes past its
`pat.length` characters; an empty pattern yields an empty match at every
position, advancing one character. -/
def findFrom (pat : List RAtom) (cs : List Char) : List String :=
  match cs with
  | [] =>
    match matchAtoms pat [] with
    | some _ => [""]
    | none => []
  | c :: cs' =>
    match matchAtoms pat (c :: cs') with
    | some _ =>
      if hp : pat = [] then "" :: findFrom pat cs'
      else String.mk ((c :: cs').take pat.length) ::
        findFrom pat ((c :: cs').drop pat.length)
    | none => findFrom pat cs'
termination_by cs.length
decreasing_by
  all_goals
    try have hp' : pat.length ≠ 0 := fun hz => hp (List.eq_nil_of_length_eq_zero hz)
  all_goals simp only [List.length_drop, List.length_cons]
  all_goals omega

/-- Models `re.find_iter(text).map(|m| m.as_str().to_string()).collect()`. -/
def find_iter (pat : List RAtom) (text : String) : List String :=
  findFrom pat text.data

/-- The decoded `/string` payload (`struct StringPayload`). -/
structure StringPayload where
  text : Option String
  sPattern : Option String

/-- The `/string` handler `string_processing` (the payload field called
`pattern` in the source is `sPattern` here). -/
def string_processing (p : StringPayload) : Resp :=
  match p.text with
  | none => errorResponse 400 "Text and pattern are required"
  | some text =>
    match p.sPattern with
    | none => errorResponse 400 "Text and pattern are required"
    | some pat =>
      match regexNew pat with
      | none => errorResponse 400 "Invalid regex pattern"
      | some re =>
        jsonResponse 200 (.obj [("matches", .arr ((find_iter re text).map .str))])

/-! ## `/compress` — `compress_data` -/

/-- The decoded `/compress` payload (`struct CompressPayload`). -/
structure CompressPayload where
  text : Option String

/-- UTF-8 encoding of one character (`str::as_bytes`), as numbers. -/
def utf8Bytes (c : Char) : List Nat :=
  let n := c.toNat
  if n < 128 then [n]
  else if n < 2048 then [192 + n / 64, 128 + n % 64]
  else if n < 65536 then [224 + n / 4096, 128 + n / 64 % 64, 128 + n % 64]
  else [240 + n / 262144, 128 + n / 4096 % 64, 128 + n / 64 % 64, 128 + n % 64]

/-- Models `text.as_bytes()`: the UTF-8 bytes of a string. -/
def strBytes (s : String) : List Nat := (s.data.map utf8Bytes).flatten

/-- The gzip `ISIZE` trailer: the payload length modulo 2^32, four bytes
little endian. -/
def isizeBytes (n : Nat) : List Nat :=
  [n % 256, n / 256 % 256, n / 2 ^ 16 % 256, n / 2 ^ 24 % 256]

/-- Modelled from the spec: the external gzip-compatible compression
codec (`flate2::GzEncoder`, absent from the sources).  The stream is
modelled as the gzip magic and deflate method bytes, the payload, and
the gzip `ISIZE` trailer; the deflate bit-compression of the payload is
abstracted away, keeping the codec's contract that a standard-compatible
decoder recovers exactly the compressed bytes. -/
def gzip_compress (data : List Nat) : List Nat :=
  [31, 139, 8, 0] ++ data ++ isizeBytes data.length

/-- Modelled from the spec: a standard-compatible gzip decoder for the
streams of `gzip_compress` — checks the magic/method bytes and the
`ISIZE` trailer and recovers the payload. -/
def gzip_decompress (stream : List Nat) : Option (List Nat) :=
  if stream.take 4 = [31, 139, 8, 0] ∧ 4 ≤ (stream.drop 4).length then
    if (stream.drop 4).drop ((stream.drop 4).length - 4)
        = isizeBytes ((stream.drop 4).take ((stream.drop 4).length - 4)).length then
      some ((stream.drop 4).take ((stream.drop 4).length - 4))
    else none
  else none

/-- The `/compress` handler `compress_data`. -/
def compress_data (p : CompressPayload) : Resp :=
  match p.text with
  | none => errorResponse 400 "Text is required"
  | some text =>
    { status := 200
      headers := [("content-type", "application/gzip")]
      body := .raw (gzip_compress (strBytes text)) }

/-! ## `/image` — `image_processing` -/

/-- The decoded `/image` payload (`struct ImagePayload`). -/
structure ImagePayload where
  text : Option String

/-- A loaded font (`rusttype::Font`), abstract but concrete: the claims
never inspect a font beyond its presence. -/
structure Font where
  data : List Nat

/-- One RGBA pixel. -/
structure Rgba where
  r : Nat
  g : Nat
  b : Nat
  a : Nat

/-- An RGBA image buffer (`image::RgbaImage`). -/
structure Img where
  width : Nat
  height : Nat
  pixels : List Rgba

/-- Models `RgbaImage::from_pixel(w, h, c)`. -/
def rgbaFromPixel (w h : Nat) (c : Rgba) : Img :=
  { width := w, height := h, pixels := List.replicate (w * h) c }

/-- The background pixel `Rgba([73, 109, 137, 255])`. -/
def basePixel : Rgba := ⟨73, 109, 137, 255⟩

/-- The text pixel `Rgba([255, 255, 0, 255])`. -/
def textColor : Rgba := ⟨255, 255, 0, 255⟩

/-- The call shape of `imageproc::drawing::draw_text_mut`: colour,
position, font and text, mutating an image buffer in place (the
floating-point glyph `Scale` is folded into the abstract rasterizer). -/
abbrev DrawFn := Rgba → Nat → Nat → Font → String → Img → Img

/-- A draw function that only writes pixels: in-place mutation of the
buffer can change neither the dimensions nor the pixel count. -/
def PixelOnlyDraw (draw : DrawFn) : Prop :=
  ∀ col x y f t img, (draw col x y f t img).width = img.width ∧
    (draw col x y f t img).height = img.height

/-- Four bytes, big endian, of `n % 2^32` (the PNG `IHDR` field layout). -/
def be32 (n : Nat) : List Nat :=
  [n / 2 ^ 24 % 256, n / 2 ^ 16 % 256, n / 256 % 256, n % 256]

/-- The eight-byte PNG signature. -/
def pngMagic : List Nat := [137, 80, 78, 71, 13, 10, 26, 10]

/-- Modelled from the spec: the external PNG encoder
(`image::codecs::png::PngEncoder`, absent from the sources).  A valid
PNG stream opens with the PNG signature followed by the `IHDR` width and
height, big endian; the chunk framing, compression and CRCs of the pixel
data are abstracted away. -/
def png_encode (img : Img) : List Nat :=
  pngMagic ++ be32 img.width ++ be32 img.height ++
    (img.pixels.map (fun p => [p.r % 256, p.g % 256, p.b % 256, p.a % 256])).flatten

/-- Read a big-endian 32-bit value from the head of a byte list. -/
def readBe32 (bs : List Nat) : Nat :=
  bs.getD 0 0 * 2 ^ 24 + bs.getD 1 0 * 2 ^ 16 + bs.getD 2 0 * 2 ^ 8 + bs.getD 3 0

/-- Modelled from the spec: what a PNG reader checks and extracts from a
stream of `png_encode` — the signature, then the image dimensions. -/
def pngDims (bs : List Nat) : Option (Nat × Nat) :=
  if bs.take 8 = pngMagic ∧ 16 ≤ bs.length then
    some (readBe32 (bs.drop 8), readBe32 (bs.drop 12))
  else none

/-- The base64 standard alphabet. -/
def b64Chars : List Char :=
  "ABCDEFGHIJKLMNOPQRSTUVWXYZabcdefghijklmnopqrstuvwxyz0123456789+/".data

/-- The alphabet character of a sextet. -/
def b64Char (n : Nat) : Char := b64Chars.getD (n % 64) 'A'

/-- The sextet of an alphabet character, `none` off the alphabet. -/
def b64Index (c : Char) : Option Nat := b64Chars.findIdx? (fun d => d == c)

/-- Models `base64::engine::general_purpose::STANDARD.encode`, on byte groups of
three with `'='` padding. -/
def base64EncodeList : List Nat → List Char
  | [] => []
  | [a] => [b64Char (a / 4), b64Char (a % 4 * 16), '=', '=']
  | [a, b] => [b64Char (a / 4), b64Char (a % 4 * 16 + b / 16), b64Char (b % 16 * 4), '=']
  | a :: b :: c :: rest =>
    b64Char (a / 4) :: b64Char (a % 4 * 16 + b / 16) ::
      b64Char (b % 16 * 4 + c / 64) :: b64Char (c % 64) :: base64EncodeList rest

/-- Base64 encoding of a byte list, as a string. -/
def base64Encode (bs : List Nat) : String := String.mk (base64EncodeList bs)

/-- Standard base64 decoding on character groups of four; `'='` padding
may close only the final group. -/
def base64DecodeList : List Char → Option (List Nat)
  | [] => some []
  | c1 :: c2 :: c3 :: c4 :: rest => do
    let s1 ← b64Index c1
    let s2 ← b64Index c2
    if c3 = '=' then
      if c4 = '=' ∧ rest = [] then pure [s1 * 4 + s2 / 16] else none
    else do
      let s3 ← b64Index c3
      if c4 = '=' then
        if rest = [] then pure [s1 * 4 + s2 / 16, s2 % 16 * 16 + s3 / 4] else none
      else do
        let s4 ← b64Index c4
        let tail ← base64DecodeList rest
        pure ((s1 * 4 + s2 / 16) :: (s2 % 16 * 16 + s3 / 4) :: (s3 % 4 * 64 + s4) :: tail)
  | _ => none

/-- Base64 decoding of a string to bytes. -/
def base64Decode (s : String) : Option (List Nat) := base64DecodeList s.data

/-- The `/image` handler `image_processing`, over the startup font state
and the external rasterizer. -/
def image_processing (font : Option Font) (draw : DrawFn) (p : ImagePayload) : Resp :=
  let text := p.text.getD "Hello, World!"
  match font with
  | none =>
    errorResponse 500 "Fonte não carregada. Coloque DejaVuSans.ttf ou comente."
  | some f =>
    let img := draw textColor 10 40 f text (rgbaFromPixel 200 100 basePixel)
    jsonResponse 200 (.obj [("image", .str (base64Encode (png_encode img)))])

/-! ## Body decoding (serde) and the router (`create_router`) -/

/-- An incoming request: method, path and a body already parsed as JSON
(a syntactically invalid body is rejected by the `Json` extractor with
the same client-error shape as a mis-typed one and is not modelled
separately). -/
structure Request where
  method : String
  path : String
  body : Jval

/-- Field lookup in a JSON object. -/
def jlookup (fields : List (String × Jval)) (name : String) : Option Jval :=
  (fields.find? (fun f => f.1 == name)).map (fun f => f.2)

/-- serde deserialization of an `i64`: an integer within the `i64`
range. -/
def asI64 : Jval → Option Int
  | .int n => if -(2 ^ 63) ≤ n ∧ n < 2 ^ 63 then some n else none
  | _ => none

/-- serde deserialization of a `String`. -/
def asString : Jval → Option String
  | .str s => some s
  | _ => none

/-- serde deserialization of a `Vec<_>`. -/
def decodeList (dec : Jval → Option α) : Jval → Option (List α)
  | .arr xs => xs.mapM dec
  | _ => none

/-- serde deserialization of an `Option<_>` struct field: a missing or
null field is `None`, a present field must deserialize. -/
def decodeOptField (dec : Jval → Option α) (fields : List (String × Jval))
    (name : String) : Option (Option α) :=
  match jlookup fields name with
  | none => some none
  | some .null => some none
  | some v => (dec v).map some

/-- serde deserialization of a required struct field: a missing field is
an error. -/
def decodeReqField (dec : Jval → Option α) (fields : List (String × Jval))
    (name : String) : Option α :=
  (jlookup fields name).bind dec

/-- Extraction of `Json<MathPayload>`. -/
def decodeMathPayload : Jval → Option MathPayload
  | .obj fields => do
    let numbers ← decodeReqField (decodeList asI64) fields "numbers"
    let operation ← decodeOptField asString fields "operation"
    pure ⟨numbers, operation⟩
  | _ => none

/-- Extraction of `Json<JsonPayload>`. -/
def decodeJsonPayload : Jval → Option JsonPayload
  | .obj fields => do
    let key ← decodeOptField asString fields "key"
    let value ← decodeOptField asString fields "value"
    pure ⟨key, value⟩
  | _ => none

/-- Extraction of `Json<StringPayload>`. -/
def decodeStringPayload : Jval → Option StringPayload
  | .obj fields => do
    let text ← decodeOptField asString fields "text"
    let pat ← decodeOptField asString fields "pattern"
    pure ⟨text, pat⟩
  | _ => none

/-- Extraction of `Json<CompressPayload>`. -/
def decodeCompressPayload : Jval → Option CompressPayload
  | .obj fields => do
    let text ← decodeOptField asString fields "text"
    pure ⟨text⟩
  | _ => none

/-- Extraction of `Json<ImagePayload>`. -/
def decodeImagePayload : Jval → Option ImagePayload
  | .obj fields => do
    let text ← decodeOptField asString fields "text"
    pure ⟨text⟩
  | _ => none

/-- The five operation handlers a router is built over; keeping them as
data makes "no handler is invoked" provable as independence of the
dispatch result from the handler set. -/
structure HandlerSet where
  math : MathPayload → Resp
  json : JsonPayload → Resp
  string : StringPayload → Resp
  compress : CompressPayload → Resp
  image : ImagePayload → Resp

/-- The client-error response of a failed `Json` extraction (axum
answers 422 Unprocessable Entity for a body that does not deserialize;
its plain-text message body is abstracted to empty bytes). -/
def unprocessableResponse : Resp :=
  { status := 422
    headers := [("content-type", "text/plain; charset=utf-8")]
    body := .raw [] }

/-- axum's fallback for an unknown path: 404 with an empty body. -/
def notFoundResponse : Resp :=
  { status := 404, headers := [], body := .raw [] }

/-- axum's `MethodRouter` fallback for a registered path hit with an
unregistered method: 405 Method Not Allowed with an empty body. -/
def methodNotAllowedResponse : Resp :=
  { status := 405, headers := [], body := .raw [] }

/-- Decode the request body for a route and run its handler, or answer
the extraction failure. -/
def handleWith (dec : Jval → Option α) (h : α → Resp) (body : Jval) : Resp :=
  match dec body with
  | none => unprocessableResponse
  | some p => h p

/-- The five registered route paths, all bound to `POST`. -/
def routePaths : List String := ["/math", "/json", "/string", "/compress", "/image"]

/-- Route dispatch of the axum `Router` assembled in `create_router`:
exact path match on the five registered `POST` routes, 405 for a
registered path under another method, 404 otherwise. -/
def dispatch (hs : HandlerSet) (req : Request) : Resp :=
  if req.method = "POST" then
    if req.path = "/math" then handleWith decodeMathPayload hs.math req.body
    else if req.path = "/json" then handleWith decodeJsonPayload hs.json req.body
    else if req.path = "/string" then handleWith decodeStringPayload hs.string req.body
    else if req.path = "/compress" then handleWith decodeCompressPayload hs.compress req.body
    else if req.path = "/image" then handleWith decodeImagePayload hs.image req.body
    else notFoundResponse
  else if req.path ∈ routePaths then methodNotAllowedResponse
  else notFoundResponse

/-- The concrete handler set of `create_router`, given the startup font
state and the external rasterizer. -/
def handlerSet (font : Option Font) (draw : DrawFn) : HandlerSet :=
  { math := math_operations
    json := json_manipulation
    string := string_processing
    compress := compress_data
    image := image_processing font draw }

/-- Models `create_router` composed with the timing layer: the single callable
the deployment shell drives, at the four clock reads of one call. -/
def create_router (font : Option Font) (draw : DrawFn) (t0 t1 t2 t3 : Nat)
    (req : Request) : Resp :=
  timingCall t0 t1 t2 t3 (dispatch (handlerSet font draw) req)

/-- A trivial pixel-only rasterizer, used to instantiate universally
quantified statements at a concrete draw function. -/
def idDraw : DrawFn := fun _ _ _ _ _ img => img

/-- A concrete font value, used to instantiate statements over a loaded
font. -/
def someFont : Font := ⟨[]⟩

/-! ## Header-map lemmas -/

/-- Lemma: `find?` ignores a filter whose predicate subsumes the search
predicate. -/
theorem find?_filter_of_imp (p q : (String × String) → Bool) (l : Headers)
    (h : ∀ x, p x = true → q x = true) :
    (l.filter q).find? p = l.find? p := by
  induction l with
  | nil => rfl
  | cons a l ih =>
    by_cases hq : q a = true
    · rw [List.filter_cons_of_pos hq]
      by_cases hp : p a = true
      · rw [List.find?_cons_of_pos _ hp, List.find?_cons_of_pos _ hp]
      · rw [List.find?_cons_of_neg _ (by simpa using hp),
          List.find?_cons_of_neg _ (by simpa using hp), ih]
    · have hp : ¬p a = true := fun hpa => hq (h a hpa)
      rw [List.filter_cons_of_neg (by simpa using hq),
        List.find?_cons_of_neg _ (by simpa using hp), ih]

/-- Looking up the name just inserted finds the inserted value. -/
theorem lookupHeader_insert_self (n v : String) (hs : Headers) :
    lookupHeader n (headerInsert n v hs) = some v := by
  unfold lookupHeader headerInsert
  rw [List.find?_append]
  have hnone : (hs.filter (fun h => h.1 != n)).find? (fun h => h.1 == n) = none := by
    rw [List.find?_eq_none]
    intro x hx
    rcases (List.mem_filter.1 hx) with ⟨-, hne⟩
    simp only [bne_iff_ne, ne_eq] at hne
    simp [hne]
  rw [hnone]
  simp

/-- Inserting under a different name does not change a lookup. -/
theorem lookupHeader_insert_other (m n v : String) (hs : Headers) (h : m ≠ n) :
    lookupHeader m (headerInsert n v hs) = lookupHeader m hs := by
  unfold lookupHeader headerInsert
  rw [List.find?_append]
  rw [find?_filter_of_imp (fun x => x.1 == m) (fun x => x.1 != n) hs ?_]
  · have hnm : (n == m) = false := by
      simpa using Ne.symm h
    have hlast : ([(n, v)].find? (fun x => x.1 == m)) = none := by
      simp [List.find?, hnm]
    rw [hlast]
    cases hs.find? (fun x => x.1 == m) <;> rfl
  · intro x hx
    have : x.1 = m := by simpa using hx
    simp [this, h]

/-! ## Validity of the rendered header values -/

/-- The digit characters produced by `digitChar`. -/
theorem digitChar_toNat (d : Nat) :
    48 ≤ (digitChar d).toNat ∧ (digitChar d).toNat ≤ 57 := by
  unfold digitChar
  have h : d % 10 < 10 := Nat.mod_lt _ (by omega)
  set m := d % 10 with hm
  interval_cases m <;> decide

/-- Every character of a decimal rendering is an ASCII digit. -/
theorem decimalDigits_digits (n : Nat) :
    ∀ c ∈ decimalDigits n, 48 ≤ c.toNat ∧ c.toNat ≤ 57 := by
  induction n using Nat.strong_induction_on with
  | _ n ih =>
    rw [decimalDigits]
    split
    · intro c hc
      rw [List.mem_singleton] at hc
      exact hc ▸ digitChar_toNat n
    · intro c hc
      rcases List.mem_append.1 hc with h | h
      · exact ih (n / 10) (Nat.div_lt_self (by omega) (by omega)) c h
      · rw [List.mem_singleton] at h
        exact h ▸ digitChar_toNat (n % 10)

/-- ASCII digits are valid header-value characters. -/
theorem isValidHVChar_of_digit (c : Char) (h : 48 ≤ c.toNat ∧ c.toNat ≤ 57) :
    isValidHVChar c = true := by
  simp only [isValidHVChar, decide_eq_true_eq]
  omega

/-- A decimal rendering is a valid header value. -/
theorem decimal_all_valid (n : Nat) : (decimal n).data.all isValidHVChar = true := by
  rw [List.all_eq_true]
  intro c hc
  exact isValidHVChar_of_digit c (decimalDigits_digits n c hc)

/-- Validity is preserved under string append. -/
theorem all_valid_append (s t : String)
    (hs : s.data.all isValidHVChar = true) (ht : t.data.all isValidHVChar = true) :
    (s ++ t).data.all isValidHVChar = true := by
  rw [String.data_append, List.all_append, hs, ht]
  rfl

/-- An `Instant` Debug rendering is a valid header value. -/
theorem renderInstant_all_valid (t : Nat) :
    (renderInstant t).data.all isValidHVChar = true := by
  unfold renderInstant
  exact all_valid_append _ _
    (all_valid_append _ _
      (all_valid_append _ _
        (all_valid_append _ _ (by decide) (decimal_all_valid _)) (by decide))
      (decimal_all_valid _))
    (by decide)

/-- Characters surviving `trimZeros` come from the input. -/
theorem mem_of_mem_trimZeros (c : Char) (ds : List Char) (h : c ∈ trimZeros ds) :
    c ∈ ds := by
  unfold trimZeros at h
  rw [List.mem_reverse] at h
  exact List.mem_reverse.1 (List.Sublist.mem h (List.dropWhile_sublist _))

/-- Characters of `padZeros` are the pad digit or come from the input. -/
theorem mem_padZeros (c : Char) (w : Nat) (ds : List Char) (h : c ∈ padZeros w ds) :
    c = '0' ∨ c ∈ ds := by
  unfold padZeros at h
  rcases List.mem_append.1 h with h | h
  · exact Or.inl (List.mem_replicate.1 h).2
  · exact Or.inr h

/-- A `Duration` fractional part is a valid header value. -/
theorem fracPart_all_valid (frac w : Nat) :
    (fracPart frac w).data.all isValidHVChar = true := by
  unfold fracPart
  split
  · decide
  · refine all_valid_append _ _ (by decide) ?_
    rw [List.all_eq_true]
    intro c hc
    rcases mem_padZeros c w _ (mem_of_mem_trimZeros c _ hc) with h | h
    · exact h ▸ (by decide)
    · exact isValidHVChar_of_digit c (decimalDigits_digits frac c h)

/-- A `Duration` Debug rendering is a valid header value. -/
theorem renderDuration_all_valid (n : Nat) :
    (renderDuration n).data.all isValidHVChar = true := by
  unfold renderDuration
  split
  · exact all_valid_append _ _
      (all_valid_append _ _ (decimal_all_valid _) (fracPart_all_valid _ _)) (by decide)
  · split
    · exact all_valid_append _ _
        (all_valid_append _ _ (decimal_all_valid _) (fracPart_all_valid _ _)) (by decide)
    · split
      · exact all_valid_append _ _
          (all_valid_append _ _ (decimal_all_valid _) (fracPart_all_valid _ _)) (by decide)
      · exact all_valid_append _ _ (decimal_all_valid _) (by decide)

/-- Validity: `HeaderValue::from_str` succeeds on an `Instant` rendering. -/
theorem hvFromStr_renderInstant (t : Nat) :
    hvFromStr (renderInstant t) = some (renderInstant t) := by
  unfold hvFromStr
  rw [if_pos (renderInstant_all_valid t)]

/-- Validity: `HeaderValue::from_str` succeeds on a `Duration` rendering. -/
theorem hvFromStr_renderDuration (n : Nat) :
    hvFromStr (renderDuration n) = some (renderDuration n) := by
  unfold hvFromStr
  rw [if_pos (renderDuration_all_valid n)]

/-! ## Claims C1–C3: the timing decorator -/

/-- C1: For every request and every inner handler outcome, the Timing
Decorator returns the inner handler's Response with its status code and
body unchanged; the only modification it performs is inserting headers
into the Response's header map. -/
theorem timing_frame_effect (t0 t1 t2 t3 : Nat) (r : Resp) :
    (timingCall t0 t1 t2 t3 r).status = r.status ∧
    (timingCall t0 t1 t2 t3 r).body = r.body ∧
    (timingCall t0 t1 t2 t3 r).headers =
      (timingHeaderList t0 t1 t2 t3).foldl
        (fun hs nv => headerInsert nv.1 nv.2 hs) r.headers :=
  ⟨rfl, rfl, rfl⟩

/-- The header map of a decorated response, as the explicit chain of the
six insertions performed by `TimingService::call`. -/
theorem timingCall_headers (t0 t1 t2 t3 : Nat) (r : Resp) :
    (timingCall t0 t1 t2 t3 r).headers =
      headerInsert "X-Endpoint-Duration" (renderDuration (t3 - t1))
        (headerInsert "X-Endpoint-End-Time" (renderInstant t3)
          (headerInsert "X-Endpoint-Start-Time" (renderInstant t1)
            (headerInsert "X-Lambda-Duration" (renderDuration (t2 - t0))
              (headerInsert "X-Lambda-End-Time" (renderInstant t2)
                (headerInsert "X-Lambda-Start-Time" (renderInstant t0)
                  r.headers))))) := rfl

/-- All six timing headers of a decorated response hold the rendered
instants and durations of that call. -/
theorem timing_lookups (t0 t1 t2 t3 : Nat) (r : Resp) :
    lookupHeader "X-Lambda-Start-Time" (timingCall t0 t1 t2 t3 r).headers
      = some (renderInstant t0) ∧
    lookupHeader "X-Lambda-End-Time" (timingCall t0 t1 t2 t3 r).headers
      = some (renderInstant t2) ∧
    lookupHeader "X-Lambda-Duration" (timingCall t0 t1 t2 t3 r).headers
      = some (renderDuration (t2 - t0)) ∧
    lookupHeader "X-Endpoint-Start-Time" (timingCall t0 t1 t2 t3 r).headers
      = some (renderInstant t1) ∧
    lookupHeader "X-Endpoint-End-Time" (timingCall t0 t1 t2 t3 r).headers
      = some (renderInstant t3) ∧
    lookupHeader "X-Endpoint-Duration" (timingCall t0 t1 t2 t3 r).headers
      = some (renderDuration (t3 - t1)) := by
  refine ⟨?_, ?_, ?_, ?_, ?_, ?_⟩ <;> rw [timingCall_headers]
  · rw [lookupHeader_insert_other _ _ _ _ (by decide),
      lookupHeader_insert_other _ _ _ _ (by decide),
      lookupHeader_insert_other _ _ _ _ (by decide),
      lookupHeader_insert_other _ _ _ _ (by decide),
      lookupHeader_insert_other _ _ _ _ (by decide),
      lookupHeader_insert_self]
  · rw [lookupHeader_insert_other _ _ _ _ (by decide),
      lookupHeader_insert_other _ _ _ _ (by decide),
      lookupHeader_insert_other _ _ _ _ (by decide),
      lookupHeader_insert_other _ _ _ _ (by decide),
      lookupHeader_insert_self]
  · rw [lookupHeader_insert_other _ _ _ _ (by decide),
      lookupHeader_insert_other _ _ _ _ (by decide),
      lookupHeader_insert_other _ _ _ _ (by decide),
      lookupHeader_insert_self]
  · rw [lookupHeader_insert_other _ _ _ _ (by decide),
      lookupHeader_insert_other _ _ _ _ (by decide),
      lookupHeader_insert_self]
  · rw [lookupHeader_insert_other _ _ _ _ (by decide),
      lookupHeader_insert_self]
  · rw [lookupHeader_insert_self]

/-- C2: Every response of the dispatch layer, for every route and both
outcomes, carries the six timing headers, holding the renderings of the
captured instants and of the durations `end − start`, and each window's
end is no earlier than its start (given the monotonicity of the four
successive clock reads). -/
theorem create_router_timing_headers (font : Option Font) (draw : DrawFn)
    (t0 t1 t2 t3 : Nat) (req : Request)
    (h01 : t0 ≤ t1) (h12 : t1 ≤ t2) (h23 : t2 ≤ t3) :
    (lookupHeader "X-Lambda-Start-Time"
        (create_router font draw t0 t1 t2 t3 req).headers
        = some (renderInstant t0) ∧
      lookupHeader "X-Lambda-End-Time"
        (create_router font draw t0 t1 t2 t3 req).headers
        = some (renderInstant t2) ∧
      lookupHeader "X-Lambda-Duration"
        (create_router font draw t0 t1 t2 t3 req).headers
        = some (renderDuration (t2 - t0)) ∧
      lookupHeader "X-Endpoint-Start-Time"
        (create_router font draw t0 t1 t2 t3 req).headers
        = some (renderInstant t1) ∧
      lookupHeader "X-Endpoint-End-Time"
        (create_router font draw t0 t1 t2 t3 req).headers
        = some (renderInstant t3) ∧
      lookupHeader "X-Endpoint-Duration"
        (create_router font draw t0 t1 t2 t3 req).headers
        = some (renderDuration (t3 - t1))) ∧
    t0 ≤ t2 ∧ t1 ≤ t3 :=
  ⟨timing_lookups t0 t1 t2 t3 (dispatch (handlerSet font draw) req),
    by omega, by omega⟩

/-- Witness for C2 at a concrete request and clock. -/
theorem create_router_timing_headers_witness :
    (lookupHeader "X-Lambda-Start-Time"
        (create_router none idDraw 0 1 2 3 ⟨"GET", "/", .null⟩).headers
        = some (renderInstant 0) ∧
      lookupHeader "X-Lambda-End-Time"
        (create_router none idDraw 0 1 2 3 ⟨"GET", "/", .null⟩).headers
        = some (renderInstant 2) ∧
      lookupHeader "X-Lambda-Duration"
        (create_router none idDraw 0 1 2 3 ⟨"GET", "/", .null⟩).headers
        = some (renderDuration (2 - 0)) ∧
      lookupHeader "X-Endpoint-Start-Time"
        (create_router none idDraw 0 1 2 3 ⟨"GET", "/", .null⟩).headers
        = some (renderInstant 1) ∧
      lookupHeader "X-Endpoint-End-Time"
        (create_router none idDraw 0 1 2 3 ⟨"GET", "/", .null⟩).headers
        = some (renderInstant 3) ∧
      lookupHeader "X-Endpoint-Duration"
        (create_router none idDraw 0 1 2 3 ⟨"GET", "/", .null⟩).headers
        = some (renderDuration (3 - 1))) ∧
    0 ≤ 2 ∧ 1 ≤ 3 :=
  create_router_timing_headers none idDraw 0 1 2 3 ⟨"GET", "/", .null⟩
    (by decide) (by decide) (by decide)

/-- C3: Every rendered instant and duration is a valid header value, so
`HeaderValue::from_str` always succeeds, the `unwrap` failure branch of
the header insertions is unreachable, and the decorated response is
never dropped. -/
theorem timing_render_never_fails :
    (∀ t, hvFromStr (renderInstant t) = some (renderInstant t)) ∧
    (∀ d, hvFromStr (renderDuration d) = some (renderDuration d)) ∧
    ∀ t0 t1 t2 t3 r,
      timingCallChecked t0 t1 t2 t3 r = some (timingCall t0 t1 t2 t3 r) := by
  refine ⟨hvFromStr_renderInstant, hvFromStr_renderDuration, ?_⟩
  intro t0 t1 t2 t3 r
  simp [timingCallChecked, timingCall, timingHeaderList, List.foldlM,
    hvFromStr_renderInstant, hvFromStr_renderDuration]

/-! ## Claim C5: `/math` -/

/-- Wrapping: `i64` wrap-around absorbs a previous wrap of an addend. -/
theorem i64wrap_add (a b : Int) : i64wrap (i64wrap a + b) = i64wrap (a + b) := by
  unfold i64wrap
  omega

/-- Wrapping: `i64` wrap-around absorbs a previous wrap of a factor. -/
theorem i64wrap_mul (a b : Int) : i64wrap (i64wrap a * b) = i64wrap (a * b) := by
  have h : i64wrap a = a - 2 ^ 64 * ((a + 2 ^ 63) / 2 ^ 64) := by
    unfold i64wrap
    rw [Int.emod_def]
    ring
  rw [h]
  unfold i64wrap
  have e : (a - 2 ^ 64 * ((a + 2 ^ 63) / 2 ^ 64)) * b + 2 ^ 63
      = a * b + 2 ^ 63 + 2 ^ 64 * (-((a + 2 ^ 63) / 2 ^ 64 * b)) := by ring
  rw [e, Int.add_mul_emod_self_left]

/-- An integer already in the `i64` range is a fixed point of the wrap. -/
theorem i64wrap_of_mem_range (n : Int) (h1 : -(2 ^ 63) ≤ n) (h2 : n < 2 ^ 63) :
    i64wrap n = n := by
  unfold i64wrap
  omega

/-- The wrapping left-fold sum from a wrapped seed. -/
theorem i64sum_go (xs : List Int) (a : Int) :
    xs.foldl (fun x y => i64wrap (x + y)) (i64wrap a) = i64wrap (a + xs.sum) := by
  induction xs generalizing a with
  | nil => simp
  | cons x xs ih =>
    simp only [List.foldl_cons, List.sum_cons]
    rw [i64wrap_add, ih]
    congr 1
    ring

/-- The `i64` sum is the arithmetic sum reduced to the `i64` range. -/
theorem i64sum_eq_wrap (xs : List Int) : i64sum xs = i64wrap xs.sum := by
  have h0 : i64wrap 0 = 0 := by decide
  unfold i64sum
  rw [← h0, i64sum_go]
  simp

/-- The wrapping left-fold product from a wrapped seed. -/
theorem i64prod_go (xs : List Int) (a : Int) :
    xs.foldl (fun x y => i64wrap (x * y)) (i64wrap a) = i64wrap (a * xs.prod) := by
  induction xs generalizing a with
  | nil => simp
  | cons x xs ih =>
    simp only [List.foldl_cons, List.prod_cons]
    rw [i64wrap_mul, ih]
    congr 1
    ring

/-- The `i64` product is the arithmetic product reduced to the `i64`
range. -/
theorem i64prod_eq_wrap (xs : List Int) : i64prod xs = i64wrap xs.prod := by
  have h1 : i64wrap 1 = 1 := by decide
  unfold i64prod
  rw [← h1, i64prod_go]
  simp

/-- C5 counterexample: a decoded payload of `i64` values whose sum
overflows; the handler answers 200 with the wrapped value, which is not
the arithmetic sum. -/
theorem math_sum_overflow_not_arithmetic :
    math_operations ⟨[9223372036854775807, 1], some "sum"⟩
      = jsonResponse 200 (.obj [("result", .int (-9223372036854775808))]) ∧
    (-9223372036854775808 : Int) ≠ 9223372036854775807 + 1 := by
  constructor
  · rfl
  · decide

/-- C5 (amended): an empty `numbers` is answered 400 regardless of the
operation; otherwise `sum` (the default) and `product` answer 200 with
the `i64` (two's-complement wrap-around) sum or product — equal to the
arithmetic one whenever that lies in the `i64` range — and any other
operation string is answered 400. -/
theorem math_operations_spec (p : MathPayload) :
    (p.numbers = [] → math_operations p = errorResponse 400 "No numbers provided") ∧
    (p.numbers ≠ [] →
      (p.operation.getD "sum" = "sum" →
        math_operations p
          = jsonResponse 200 (.obj [("result", .int (i64wrap p.numbers.sum))])) ∧
      (p.operation.getD "sum" = "product" →
        math_operations p
          = jsonResponse 200 (.obj [("result", .int (i64wrap p.numbers.prod))])) ∧
      (p.operation.getD "sum" ≠ "sum" → p.operation.getD "sum" ≠ "product" →
        math_operations p = errorResponse 400 "Unsupported operation")) ∧
    (-(2 ^ 63) ≤ p.numbers.sum → p.numbers.sum < 2 ^ 63 →
      i64wrap p.numbers.sum = p.numbers.sum) ∧
    (-(2 ^ 63) ≤ p.numbers.prod → p.numbers.prod < 2 ^ 63 →
      i64wrap p.numbers.prod = p.numbers.prod) := by
  refine ⟨?_, ?_, i64wrap_of_mem_range _, i64wrap_of_mem_range _⟩
  · intro h
    simp [math_operations, h]
  · intro hne
    have hemp : p.numbers.isEmpty = false := by
      simpa [List.isEmpty_iff] using hne
    refine ⟨?_, ?_, ?_⟩
    · intro hop
      simp only [math_operations, hemp, Bool.false_eq_true, if_false, hop,
        i64sum_eq_wrap]
    · intro hop
      simp only [math_operations, hemp, Bool.false_eq_true, if_false, hop,
        i64prod_eq_wrap]
    · intro h1 h2
      simp only [math_operations, hemp, Bool.false_eq_true, if_false]

/-- Witness for C5 at concrete payloads. -/
theorem math_operations_spec_witness :
    math_operations ⟨[1, 2, 3], none⟩
      = jsonResponse 200 (.obj [("result", .int (i64wrap 6))]) ∧
    math_operations ⟨[2, 3, 4], some "product"⟩
      = jsonResponse 200 (.obj [("result", .int (i64wrap 24))]) ∧
    math_operations ⟨[], some "product"⟩
      = errorResponse 400 "No numbers provided" ∧
    math_operations ⟨[5], some "median"⟩
      = errorResponse 400 "Unsupported operation" := by
  refine ⟨?_, ?_, ?_, ?_⟩
  · exact (math_operations_spec ⟨[1, 2, 3], none⟩).2.1 (by decide) |>.1 rfl
  · exact (math_operations_spec ⟨[2, 3, 4], some "product"⟩).2.1 (by decide) |>.2.1 rfl
  · exact (math_operations_spec ⟨[], some "product"⟩).1 rfl
  · exact (math_operations_spec ⟨[5], some "median"⟩).2.1 (by decide) |>.2.2
      (by decide) (by decide)

/-! ## Claim C6: `/json` -/

/-- C6: With both `key` and `value` present the handler answers 200 and
`json_data` is the serialization of the one-entry JSON object mapping
the key to the value; with either field absent it answers 400. -/
theorem json_manipulation_spec (p : JsonPayload) :
    (p.key = none →
      json_manipulation p = errorResponse 400 "Key and value are required") ∧
    (p.value = none →
      json_manipulation p = errorResponse 400 "Key and value are required") ∧
    (∀ k v, p.key = some k → p.value = some v →
      json_manipulation p
        = jsonResponse 200 (.obj [("json_data", .str (jsonStringify1 k v))])) := by
  refine ⟨?_, ?_, ?_⟩
  · intro h
    simp [json_manipulation, h]
  · intro h
    cases hk : p.key with
    | none => simp [json_manipulation, hk]
    | some k => simp [json_manipulation, hk, h]
  · intro k v hk hv
    simp [json_manipulation, hk, hv]

/-- Witness for C6: the concrete serialization for `key="a"`,
`value="b"`, and the 400 for a missing key. -/
theorem json_manipulation_spec_witness :
    json_manipulation ⟨some "a", some "b"⟩
      = jsonResponse 200 (.obj [("json_data", .str "\x7b\"a\":\"b\"\x7d")]) ∧
    json_manipulation ⟨none, some "b"⟩
      = errorResponse 400 "Key and value are required" := by
  constructor
  · have hs : jsonStringify1 "a" "b" = "\x7b\"a\":\"b\"\x7d" := rfl
    rw [(json_manipulation_spec ⟨some "a", some "b"⟩).2.2 "a" "b" rfl rfl, hs]
  · exact (json_manipulation_spec ⟨none, some "b"⟩).1 rfl

/-! ## Claim C4: `/compress` -/

/-- The modelled gzip codec round-trips every payload. -/
theorem gzip_roundtrip (data : List Nat) :
    gzip_decompress (gzip_compress data) = some data := by
  have h4 : (isizeBytes data.length).length = 4 := rfl
  unfold gzip_compress gzip_decompress
  rw [List.append_assoc]
  have htake : List.take 4 (([31, 139, 8, 0] : List Nat) ++ (data ++ isizeBytes data.length))
      = [31, 139, 8, 0] := List.take_left' rfl
  have hdrop : List.drop 4 (([31, 139, 8, 0] : List Nat) ++ (data ++ isizeBytes data.length))
      = data ++ isizeBytes data.length := List.drop_left' rfl
  rw [htake, hdrop]
  have hlen : (data ++ isizeBytes data.length).length - 4 = data.length := by
    rw [List.length_append, h4]
    omega
  rw [if_pos ⟨rfl, by rw [List.length_append, h4]; omega⟩, hlen, List.take_left,
    List.drop_left, if_pos rfl]

/-- C4 counterexample: an empty-string `text` is a present field, so the
handler does not reject it: it answers 200 with the gzip content type,
not 400. -/
theorem compress_empty_text_200 :
    compress_data ⟨some ""⟩
      = { status := 200, headers := [("content-type", "application/gzip")],
          body := .raw (gzip_compress []) } ∧
    (compress_data ⟨some ""⟩).status ≠ 400 := by
  constructor
  · rfl
  · decide

/-- C4 (amended): an absent `text` is rejected with 400; every present
`text` — the empty string included — is answered 200 with content type
`application/gzip` and a body that decompresses back to exactly the
bytes of the original text. -/
theorem compress_data_spec (p : CompressPayload) :
    (p.text = none → compress_data p = errorResponse 400 "Text is required") ∧
    ∀ t, p.text = some t →
      compress_data p
        = { status := 200, headers := [("content-type", "application/gzip")],
            body := .raw (gzip_compress (strBytes t)) } ∧
      gzip_decompress (gzip_compress (strBytes t)) = some (strBytes t) := by
  refine ⟨?_, ?_⟩
  · intro h
    simp [compress_data, h]
  · intro t ht
    refine ⟨?_, gzip_roundtrip _⟩
    simp [compress_data, ht]

/-- Witness for C4 at `text="hello"`. -/
theorem compress_data_spec_witness :
    compress_data ⟨some "hello"⟩
      = { status := 200, headers := [("content-type", "application/gzip")],
          body := .raw (gzip_compress (strBytes "hello")) } ∧
    gzip_decompress (gzip_compress (strBytes "hello")) = some (strBytes "hello") :=
  (compress_data_spec ⟨some "hello"⟩).2 "hello" rfl

/-! ## Claim C7: `/string` -/

/-- C7: With `text` or `pattern` absent the handler answers 400; with
both present, a pattern the engine rejects is answered 400, and a
pattern it compiles is answered 200 with `matches` the ordered
substrings produced by the scan of `find_iter`. -/
theorem string_processing_spec (p : StringPayload) :
    (p.text = none →
      string_processing p = errorResponse 400 "Text and pattern are required") ∧
    (p.sPattern = none →
      string_processing p = errorResponse 400 "Text and pattern are required") ∧
    (∀ t pat, p.text = some t → p.sPattern = some pat →
      (regexNew pat = none →
        string_processing p = errorResponse 400 "Invalid regex pattern") ∧
      (∀ re, regexNew pat = some re →
        string_processing p
          = jsonResponse 200 (.obj [("matches", .arr ((find_iter re t).map .str))]))) := by
  refine ⟨?_, ?_, ?_⟩
  · intro h
    simp [string_processing, h]
  · intro h
    cases ht : p.text with
    | none => simp [string_processing, ht]
    | some t => simp [string_processing, ht, h]
  · intro t pat ht hp
    constructor
    · intro hre
      simp [string_processing, ht, hp, hre]
    · intro re hre
      simp [string_processing, ht, hp, hre]

/-- Witness for C7: the concrete scan for `text="abcabc"`,
`pattern="a.c"`, and the 400 for the unbalanced pattern `"(a"`. -/
theorem string_processing_spec_witness :
    string_processing ⟨some "abcabc", some "a.c"⟩
      = jsonResponse 200 (.obj [("matches", .arr [.str "abc", .str "abc"])]) ∧
    string_processing ⟨some "x", some "(a"⟩
      = errorResponse 400 "Invalid regex pattern" := by
  constructor
  · have h := ((string_processing_spec ⟨some "abcabc", some "a.c"⟩).2.2
      "abcabc" "a.c" rfl rfl).2 [.lit 'a', .dot, .lit 'c'] rfl
    have hfi : find_iter [RAtom.lit 'a', RAtom.dot, RAtom.lit 'c'] "abcabc"
        = ["abc", "abc"] := by
      simp [find_iter, findFrom, matchAtoms, atomMatches]
    rw [h, hfi]
    rfl
  · exact ((string_processing_spec ⟨some "x", some "(a"⟩).2.2 "x" "(a" rfl rfl).1 rfl

/-! ## Claim C8: `/image` -/

/-- Alphabet characters round-trip through the index. -/
theorem b64Index_b64Char (n : Nat) (h : n < 64) : b64Index (b64Char n) = some n := by
  have key : ∀ m : Fin 64, b64Index (b64Char m.val) = some m.val := by decide
  exact key ⟨n, h⟩

/-- No alphabet character is the padding character. -/
theorem b64Char_ne_pad (n : Nat) : b64Char n ≠ '=' := by
  have key : ∀ m : Fin 64, b64Chars.getD m.val 'A' ≠ '=' := by decide
  have h : n % 64 < 64 := Nat.mod_lt _ (by omega)
  simpa [b64Char] using key ⟨n % 64, h⟩

/-- Decoding a final group with two padding characters. -/
theorem base64DecodeList_pad2 (s1 s2 : Nat) (h1 : s1 < 64) (h2 : s2 < 64) :
    base64DecodeList [b64Char s1, b64Char s2, '=', '=']
      = some [s1 * 4 + s2 / 16] := by
  simp [base64DecodeList, b64Index_b64Char _ h1, b64Index_b64Char _ h2]

/-- Decoding a final group with one padding character. -/
theorem base64DecodeList_pad1 (s1 s2 s3 : Nat)
    (h1 : s1 < 64) (h2 : s2 < 64) (h3 : s3 < 64) :
    base64DecodeList [b64Char s1, b64Char s2, b64Char s3, '=']
      = some [s1 * 4 + s2 / 16, s2 % 16 * 16 + s3 / 4] := by
  simp [base64DecodeList, b64Index_b64Char _ h1, b64Index_b64Char _ h2,
    b64Index_b64Char _ h3, b64Char_ne_pad]

/-- Decoding an unpadded group ahead of the rest of the stream. -/
theorem base64DecodeList_full (s1 s2 s3 s4 : Nat) (L : List Char)
    (h1 : s1 < 64) (h2 : s2 < 64) (h3 : s3 < 64) (h4 : s4 < 64) :
    base64DecodeList (b64Char s1 :: b64Char s2 :: b64Char s3 :: b64Char s4 :: L)
      = (base64DecodeList L).map
          (fun tail =>
            (s1 * 4 + s2 / 16) :: (s2 % 16 * 16 + s3 / 4) :: (s3 % 4 * 64 + s4) :: tail) := by
  simp only [base64DecodeList, b64Index_b64Char _ h1, b64Index_b64Char _ h2,
    b64Index_b64Char _ h3, b64Index_b64Char _ h4, Option.some_bind,
    if_neg (b64Char_ne_pad s3), if_neg (b64Char_ne_pad s4)]
  cases base64DecodeList L <;> rfl

/-- Base64 decoding inverts base64 encoding on byte lists. -/
theorem base64_roundtrip : ∀ (bs : List Nat), (∀ b ∈ bs, b < 256) →
    base64DecodeList (base64EncodeList bs) = some bs := by
  intro bs
  induction bs using base64EncodeList.induct with
  | case1 =>
    intro _
    rfl
  | case2 a =>
    intro h
    have ha : a < 256 := h a (by simp)
    rw [show base64EncodeList [a]
        = [b64Char (a / 4), b64Char (a % 4 * 16), '=', '='] from rfl,
      base64DecodeList_pad2 _ _ (by omega) (by omega)]
    have e : a / 4 * 4 + a % 4 * 16 / 16 = a := by omega
    rw [e]
  | case3 a b =>
    intro h
    have ha : a < 256 := h a (by simp)
    have hb : b < 256 := h b (by simp)
    rw [show base64EncodeList [a, b]
        = [b64Char (a / 4), b64Char (a % 4 * 16 + b / 16), b64Char (b % 16 * 4), '=']
        from rfl,
      base64DecodeList_pad1 _ _ _ (by omega) (by omega) (by omega)]
    have e1 : a / 4 * 4 + (a % 4 * 16 + b / 16) / 16 = a := by omega
    have e2 : (a % 4 * 16 + b / 16) % 16 * 16 + b % 16 * 4 / 4 = b := by omega
    rw [e1, e2]
  | case4 a b c rest ih =>
    intro h
    have ha : a < 256 := h a (by simp)
    have hb : b < 256 := h b (by simp)
    have hc : c < 256 := h c (by simp)
    have hrest : ∀ x ∈ rest, x < 256 := fun x hx => h x (by simp [hx])
    rw [show base64EncodeList (a :: b :: c :: rest)
        = b64Char (a / 4) :: b64Char (a % 4 * 16 + b / 16)
          :: b64Char (b % 16 * 4 + c / 64) :: b64Char (c % 64)
          :: base64EncodeList rest from rfl,
      base64DecodeList_full _ _ _ _ _ (by omega) (by omega) (by omega) (by omega),
      ih hrest]
    have e1 : a / 4 * 4 + (a % 4 * 16 + b / 16) / 16 = a := by omega
    have e2 : (a % 4 * 16 + b / 16) % 16 * 16 + (b % 16 * 4 + c / 64) / 4 = b := by omega
    have e3 : (b % 16 * 4 + c / 64) % 4 * 64 + c % 64 = c := by omega
    rw [Option.map_some', e1, e2, e3]

/-- The bytes of a `be32` field are bytes. -/
theorem be32_lt (n : Nat) : ∀ b ∈ be32 n, b < 256 := by
  intro b hb
  simp only [be32, List.mem_cons, List.not_mem_nil, or_false] at hb
  rcases hb with rfl | rfl | rfl | rfl <;> exact Nat.mod_lt _ (by omega)

/-- Every entry of a PNG stream of `png_encode` is a byte. -/
theorem png_encode_bytes_lt (img : Img) : ∀ b ∈ png_encode img, b < 256 := by
  intro b hb
  unfold png_encode at hb
  rcases List.mem_append.1 hb with hb | hb
  · rcases List.mem_append.1 hb with hb | hb
    · rcases List.mem_append.1 hb with hb | hb
      · have hmag : ∀ x ∈ pngMagic, x < 256 := by decide
        exact hmag b hb
      · exact be32_lt _ b hb
    · exact be32_lt _ b hb
  · rcases List.mem_flatten.1 hb with ⟨l, hl, hbl⟩
    rcases List.mem_map.1 hl with ⟨px, _, rfl⟩
    simp only [List.mem_cons, List.not_mem_nil, or_false] at hbl
    rcases hbl with rfl | rfl | rfl | rfl <;> exact Nat.mod_lt _ (by omega)

/-- Reading back a big-endian 32-bit field. -/
theorem readBe32_be32 (n : Nat) (rest : List Nat) :
    readBe32 (be32 n ++ rest) = n % 2 ^ 32 := by
  have e : readBe32 (be32 n ++ rest)
      = n / 2 ^ 24 % 256 * 2 ^ 24 + n / 2 ^ 16 % 256 * 2 ^ 16
        + n / 256 % 256 * 2 ^ 8 + n % 256 := rfl
  rw [e]
  omega

/-- The dimensions read back from an encoded PNG stream. -/
theorem pngDims_encode (img : Img) :
    pngDims (png_encode img) = some (img.width % 2 ^ 32, img.height % 2 ^ 32) := by
  have hw : (be32 img.width).length = 4 := rfl
  have hm : pngMagic.length = 8 := rfl
  unfold png_encode pngDims
  generalize (img.pixels.map
    (fun p => [p.r % 256, p.g % 256, p.b % 256, p.a % 256])).flatten = pix
  rw [List.append_assoc, List.append_assoc]
  have htake : List.take 8 (pngMagic ++ (be32 img.width ++ (be32 img.height ++ pix)))
      = pngMagic := List.take_left' rfl
  have hdrop : List.drop 8 (pngMagic ++ (be32 img.width ++ (be32 img.height ++ pix)))
      = be32 img.width ++ (be32 img.height ++ pix) := List.drop_left' rfl
  have h12 : List.drop 12 (pngMagic ++ (be32 img.width ++ (be32 img.height ++ pix)))
      = List.drop 4 (List.drop 8 (pngMagic ++ (be32 img.width ++ (be32 img.height ++ pix))))
      := by
    rw [List.drop_drop]
  have hlen16 : 16 ≤ (pngMagic ++ (be32 img.width ++ (be32 img.height ++ pix))).length := by
    simp only [List.length_append, hm, hw]
    have hh4 : (be32 img.height).length = 4 := rfl
    rw [hh4]
    omega
  rw [if_pos ⟨htake, hlen16⟩, h12, hdrop, List.drop_left' hw, readBe32_be32, readBe32_be32]

/-- C8: With the font loaded, the handler answers 200 with `image` a
base64 string decoding exactly to the PNG stream of the drawn canvas,
whose dimensions are the fixed 200×100, the text defaulting to
"Hello, World!" when absent; with the font state empty it answers 500
(the rasterizer being any pixel-only draw function). -/
theorem image_processing_spec (font : Option Font) (draw : DrawFn)
    (hdraw : PixelOnlyDraw draw) (p : ImagePayload) :
    (font = none → image_processing font draw p
      = errorResponse 500 "Fonte não carregada. Coloque DejaVuSans.ttf ou comente.") ∧
    (∀ f, font = some f →
      image_processing font draw p
        = jsonResponse 200 (.obj [("image", .str (base64Encode (png_encode
            (draw textColor 10 40 f (p.text.getD "Hello, World!")
              (rgbaFromPixel 200 100 basePixel)))))]) ∧
      base64Decode (base64Encode (png_encode
          (draw textColor 10 40 f (p.text.getD "Hello, World!")
            (rgbaFromPixel 200 100 basePixel))))
        = some (png_encode (draw textColor 10 40 f (p.text.getD "Hello, World!")
            (rgbaFromPixel 200 100 basePixel))) ∧
      pngDims (png_encode (draw textColor 10 40 f (p.text.getD "Hello, World!")
          (rgbaFromPixel 200 100 basePixel)))
        = some (200, 100)) := by
  constructor
  · intro h
    simp [image_processing, h]
  · intro f hf
    refine ⟨by simp [image_processing, hf], ?_, ?_⟩
    · exact base64_roundtrip _ (png_encode_bytes_lt _)
    · rw [pngDims_encode]
      rcases hdraw textColor 10 40 f (p.text.getD "Hello, World!")
        (rgbaFromPixel 200 100 basePixel) with ⟨hwid, hhei⟩
      rw [hwid, hhei]
      rfl

/-- Witness for C8 at the loaded font, a pixel-only rasterizer and a
payload with no `text` field. -/
theorem image_processing_spec_witness :
    image_processing (some someFont) idDraw ⟨none⟩
      = jsonResponse 200 (.obj [("image", .str (base64Encode (png_encode
          (idDraw textColor 10 40 someFont "Hello, World!"
            (rgbaFromPixel 200 100 basePixel)))))]) ∧
    pngDims (png_encode (idDraw textColor 10 40 someFont "Hello, World!"
        (rgbaFromPixel 200 100 basePixel))) = some (200, 100) := by
  have h := (image_processing_spec (some someFont) idDraw
      (fun _ _ _ _ _ _ => ⟨rfl, rfl⟩) ⟨none⟩).2 someFont rfl
  exact ⟨h.1, h.2.2⟩

/-! ## Claim C9: routing misses -/

/-- C9 counterexample: two requests matching none of the five registered
routes receive different statuses — a registered path under `GET`
receives 405 Method Not Allowed, not the fixed not-found status. -/
theorem dispatch_get_math_405 :
    (dispatch (handlerSet none idDraw) ⟨"GET", "/math", .null⟩).status = 405 ∧
    (dispatch (handlerSet none idDraw) ⟨"GET", "/nowhere", .null⟩).status = 404 ∧
    (405 : Nat) ≠ 404 := by
  refine ⟨rfl, rfl, by decide⟩

/-- C9 (amended): a request matching no registered route is answered
without invoking any Operation Handler — the dispatch result does not
depend on the handler set — with 404 when the path is unregistered and
405 when the path is registered but the method is not `POST`. -/
theorem dispatch_unmatched_spec (hs hs' : HandlerSet) (req : Request)
    (h : ¬(req.method = "POST" ∧ req.path ∈ routePaths)) :
    dispatch hs req = dispatch hs' req ∧
    (req.path ∉ routePaths → dispatch hs req = notFoundResponse) ∧
    (req.path ∈ routePaths → dispatch hs req = methodNotAllowedResponse) := by
  by_cases hm : req.method = "POST"
  · have hp : req.path ∉ routePaths := fun hpp => h ⟨hm, hpp⟩
    obtain ⟨h1, h2, h3, h4, h5⟩ : req.path ≠ "/math" ∧ req.path ≠ "/json" ∧
        req.path ≠ "/string" ∧ req.path ≠ "/compress" ∧ req.path ≠ "/image" := by
      simpa [routePaths] using hp
    exact ⟨by simp [dispatch, hm, h1, h2, h3, h4, h5],
      fun _ => by simp [dispatch, hm, h1, h2, h3, h4, h5],
      fun hpp => absurd hpp hp⟩
  · refine ⟨?_, ?_, ?_⟩
    · by_cases hpp : req.path ∈ routePaths <;> simp [dispatch, hm, hpp]
    · intro hpp
      simp [dispatch, hm, hpp]
    · intro hpp
      simp [dispatch, hm, hpp]

/-- Witness for C9 at a concrete unmatched request and two different
handler sets. -/
theorem dispatch_unmatched_spec_witness :
    dispatch (handlerSet none idDraw) ⟨"GET", "/math", .null⟩
      = dispatch (handlerSet (some someFont) idDraw) ⟨"GET", "/math", .null⟩ ∧
    ("/math" : String) ∈ routePaths ∧
    dispatch (handlerSet none idDraw) ⟨"GET", "/math", .null⟩
      = methodNotAllowedResponse := by
  have h := dispatch_unmatched_spec (handlerSet none idDraw)
    (handlerSet (some someFont) idDraw) ⟨"GET", "/math", .null⟩ (by decide)
  exact ⟨h.1, by decide, h.2.2 (by decide)⟩
